import Mathlib

/-!
Shallow embedding of `src/main.go` of icholy/shittydocker.

The program pulls a container image from a registry (token, manifest list,
platform manifest, layer blobs), extracts each layer with an external
`tar` process, and launches a command chrooted into the result inside a
new PID namespace.  Network responses and the external `tar` process are
the environment; they are modelled as explicit oracle values passed in,
while all control flow, decoding and error construction of the Go source
is reproduced definitionally.
-/

/-- Bytes of a layer blob (`[]byte` in Go). -/
abbrev ByteData := List Nat

/-- `type Platform struct { Architecture, OS string }` (main.go:113). -/
structure Platform where
  architecture : String
  os : String
deriving DecidableEq, Repr, Inhabited

/-- `type Layer struct { MediaType string; Size int; Digest string }` (main.go:118). -/
structure Layer where
  mediaType : String
  size : Int
  digest : String
deriving DecidableEq, Repr, Inhabited

/-- `type Manifest struct { Annotations map[string]string; Digest, MediaType string; Platform Platform; Size int }` (main.go:124). -/
structure Manifest where
  annotations : List (String × String)
  digest : String
  mediaType : String
  platform : Platform
  size : Int
deriving DecidableEq, Repr, Inhabited

/-- A JSON document, as decoded from a response body. -/
inductive Json where
  | null
  | boolean (b : Bool)
  | num (n : Int)
  | str (s : String)
  | arr (xs : List Json)
  | obj (fields : List (String × Json))
deriving Repr, Inhabited

/-- Look up a key in a JSON object.  `encoding/json` assigns object keys
sequentially into the target struct, so on duplicate keys the last
occurrence wins. -/
def jsonLookup (fields : List (String × Json)) (key : String) : Option Json :=
  ((fields.filter (fun kv => kv.1 == key)).map (fun kv => kv.2)).getLast?

/-- Decode a JSON value into a Go `string` field.  `null` leaves the
field at its zero value `""`; any non-string value is a type error. -/
def decodeString : Json → Except String String
  | .str s => .ok s
  | .null => .ok ""
  | _ => .error "json: cannot unmarshal value into field of type string"

/-- Decode a JSON value into a Go `int` field. -/
def decodeInt : Json → Except String Int
  | .num n => .ok n
  | .null => .ok 0
  | _ => .error "json: cannot unmarshal value into field of type int"

/-- Decode a JSON value into a Go `map[string]string`. -/
def decodeStringMap : Json → Except String (List (String × String))
  | .null => .ok []
  | .obj fs => fs.mapM (fun kv => do
      let v ← decodeString kv.2
      pure (kv.1, v))
  | _ => .error "json: cannot unmarshal value into map[string]string"

/-- Decode a string field of a JSON object; an absent key leaves the Go
field at its zero value `""`. -/
def fieldString (fs : List (String × Json)) (key : String) : Except String String :=
  match jsonLookup fs key with
  | none => .ok ""
  | some j => decodeString j

/-- Decode an int field of a JSON object; an absent key leaves the Go
field at its zero value `0`. -/
def fieldInt (fs : List (String × Json)) (key : String) : Except String Int :=
  match jsonLookup fs key with
  | none => .ok 0
  | some j => decodeInt j

/-- Decode a JSON value into `Platform` (tags `architecture`, `os`). -/
def decodePlatform : Json → Except String Platform
  | .null => .ok default
  | .obj fs => do
      let a ← fieldString fs "architecture"
      let o ← fieldString fs "os"
      pure { architecture := a, os := o }
  | _ => .error "json: cannot unmarshal value into Platform"

/-- Decode a JSON value into `Manifest`. -/
def decodeManifest : Json → Except String Manifest
  | .null => .ok default
  | .obj fs => do
      let ann ← match jsonLookup fs "annotations" with
        | none => Except.ok []
        | some j => decodeStringMap j
      let dg ← fieldString fs "digest"
      let mt ← fieldString fs "mediaType"
      let pl ← match jsonLookup fs "platform" with
        | none => Except.ok (default : Platform)
        | some j => decodePlatform j
      let sz ← fieldInt fs "size"
      pure { annotations := ann, digest := dg, mediaType := mt, platform := pl, size := sz }
  | _ => .error "json: cannot unmarshal value into Manifest"

/-- Decode a JSON value into `[]Manifest`. -/
def decodeManifestArray : Json → Except String (List Manifest)
  | .null => .ok []
  | .arr xs => xs.mapM decodeManifest
  | _ => .error "json: cannot unmarshal value into []Manifest"

/-- Decode the manifest-list response body
`struct { Manifests []Manifest \x60json:"manifests"\x60 }` (main.go:148).
An absent `manifests` key leaves the slice at its zero value `nil`. -/
def decodeManifestListBody : Json → Except String (List Manifest)
  | .null => .ok []
  | .obj fs =>
      match jsonLookup fs "manifests" with
      | none => .ok []
      | some j => decodeManifestArray j
  | _ => .error "json: cannot unmarshal value into manifest list body"

/-- Decode a JSON value into `Layer`. -/
def decodeLayer : Json → Except String Layer
  | .null => .ok default
  | .obj fs => do
      let mt ← fieldString fs "mediaType"
      let sz ← fieldInt fs "size"
      let dg ← fieldString fs "digest"
      pure { mediaType := mt, size := sz, digest := dg }
  | _ => .error "json: cannot unmarshal value into Layer"

/-- Decode a JSON value into `[]Layer`. -/
def decodeLayerArray : Json → Except String (List Layer)
  | .null => .ok []
  | .arr xs => xs.mapM decodeLayer
  | _ => .error "json: cannot unmarshal value into []Layer"

/-- Decode the manifest response body
`struct { Layers []Layer \x60json:"layers"\x60 }` (main.go:181). -/
def decodeLayersBody : Json → Except String (List Layer)
  | .null => .ok []
  | .obj fs =>
      match jsonLookup fs "layers" with
      | none => .ok []
      | some j => decodeLayerArray j
  | _ => .error "json: cannot unmarshal value into layers body"

/-- Decode the token response body
`struct { Token string \x60json:"token"\x60 }` (main.go:98).
An absent `token` key leaves the field at its zero value `""`. -/
def decodeTokenBody : Json → Except String String
  | .null => .ok ""
  | .obj fs =>
      match jsonLookup fs "token" with
      | none => .ok ""
      | some j => decodeString j
  | _ => .error "json: cannot unmarshal value into token body"

/-- Outcome of one HTTP request, as the Go code observes it: either a
network-level failure of the round trip, or a response with a status
code and a body.  For JSON endpoints the body is `.error msg` when the
bytes are not decodable and `.ok j` when they decode to the document
`j`; for the blob endpoint it is the read bytes or a read failure. -/
inductive HttpResult (β : Type) where
  | transportFailure (msg : String)
  | response (status : Nat) (body : β)

/-- The error values constructed by the Go source, one constructor per
distinct error construction site. -/
inductive GoErr where
  /-- An error returned by the HTTP client or body read (`err` from
  `http.DefaultClient` / `io.ReadAll`). -/
  | transport (msg : String)
  /-- A `json.Decoder.Decode` error. -/
  | jsonDecode (msg : String)
  /-- `fmt.Errorf("unexpected status code: %d", res.StatusCode)`
  (main.go:146,179,203). -/
  | unexpectedStatus (code : Nat)
  /-- `fmt.Errorf("manifest not found")` (main.go:74). -/
  | manifestNotFound
  /-- `fmt.Errorf("failed to untar: %v", err)` (main.go:91). -/
  | untarFailed (msg : String)
deriving DecidableEq, Repr

/-- `FetchRegistryToken` (main.go:97-111): GET the auth endpoint, decode
the body into `struct{ Token string }`, and return `body.Token`.  The
HTTP status code is never inspected. -/
def FetchRegistryToken (res : HttpResult (Except String Json)) : Except GoErr String :=
  match res with
  | .transportFailure msg => .error (.transport msg)
  | .response _status body =>
      match body with
      | .error msg => .error (.jsonDecode msg)
      | .ok j =>
          match decodeTokenBody j with
          | .error msg => .error (.jsonDecode msg)
          | .ok t => .ok t

/-- `ListManifests` (main.go:132-155): GET the manifest list for tag
`latest`; any status other than 200 is an error carrying the status;
otherwise decode the body and return its `manifests` field. -/
def ListManifests (res : HttpResult (Except String Json)) : Except GoErr (List Manifest) :=
  match res with
  | .transportFailure msg => .error (.transport msg)
  | .response status body =>
      if status = 200 then
        match body with
        | .error msg => .error (.jsonDecode msg)
        | .ok j =>
            match decodeManifestListBody j with
            | .error msg => .error (.jsonDecode msg)
            | .ok ms => .ok ms
      else .error (.unexpectedStatus status)

/-- `FindManifest` (main.go:157-164): linear scan of the manifest list,
returning the first entry whose platform equals the query; `none`
models the Go return `Manifest{}, false`. -/
def FindManifest : List Manifest → Platform → Option Manifest
  | [], _ => none
  | m :: rest, p => if m.platform = p then some m else FindManifest rest p

/-- `ListLayers` (main.go:166-188): GET the manifest by digest; any
status other than 200 is an error carrying the status; otherwise decode
the body and return its `layers` field. -/
def ListLayers (res : HttpResult (Except String Json)) : Except GoErr (List Layer) :=
  match res with
  | .transportFailure msg => .error (.transport msg)
  | .response status body =>
      if status = 200 then
        match body with
        | .error msg => .error (.jsonDecode msg)
        | .ok j =>
            match decodeLayersBody j with
            | .error msg => .error (.jsonDecode msg)
            | .ok ls => .ok ls
      else .error (.unexpectedStatus status)

/-- `FetchLayer` (main.go:190-206): GET the blob by digest; any status
other than 200 is an error carrying the status; otherwise return the
bytes read by `io.ReadAll` (a read failure is a transport-level error). -/
def FetchLayer (res : HttpResult (Except String ByteData)) : Except GoErr ByteData :=
  match res with
  | .transportFailure msg => .error (.transport msg)
  | .response status body =>
      if status = 200 then
        match body with
        | .error msg => .error (.transport msg)
        | .ok data => .ok data
      else .error (.unexpectedStatus status)

/-- The environment of one `FetchImageTo` run: the responses the network
returns for each request the program can make, and the outcome of the
external `tar` process on given input bytes.  Responses to the by-digest
requests are keyed by the digest in the request URL. -/
structure World where
  tokenRes : HttpResult (Except String Json)
  manifestsRes : HttpResult (Except String Json)
  layersRes : String → HttpResult (Except String Json)
  blobRes : String → HttpResult (Except String ByteData)
  untarRes : ByteData → Except String Unit

/-- Observable steps of the pipeline, in the order the program performs
them.  By-digest steps record the digest in the request. -/
inductive Event where
  | fetchToken
  | listManifests
  | listLayers (manifestDigest : String)
  | fetchLayer (layerDigest : String)
  | untar (layerDigest : String)
deriving DecidableEq, Repr

/-- Whether an event is a blob (layer) request. -/
def Event.isFetchLayer : Event → Bool
  | .fetchLayer _ => true
  | _ => false

/-- The layer loop of `FetchImageTo` (main.go:80-93): for each layer in
list order, fetch its blob, then pipe the bytes into
`tar -xzf - -C dir`; the first failing step aborts the loop, a fetch
error is returned as-is and a tar failure as
`failed to untar: <tar error>`.  Returns the trace of performed steps
together with the result. -/
def layerLoop (w : World) : List Layer → List Event × Except GoErr Unit
  | [] => ([], .ok ())
  | l :: rest =>
      match FetchLayer (w.blobRes l.digest) with
      | .error e => ([.fetchLayer l.digest], .error e)
      | .ok data =>
          match w.untarRes data with
          | .error msg => ([.fetchLayer l.digest, .untar l.digest], .error (.untarFailed msg))
          | .ok _ =>
              let r := layerLoop w rest
              (.fetchLayer l.digest :: .untar l.digest :: r.1, r.2)

/-- The trace of a fully successful pass over a layer list: fetch then
extract, layer by layer in list order. -/
def layerEvents : List Layer → List Event
  | [] => []
  | l :: rest => .fetchLayer l.digest :: .untar l.digest :: layerEvents rest

/-- `FetchImageTo` (main.go:60-95): token, manifest list, platform
lookup, layer list, then the layer loop; each failing stage aborts the
pipeline and returns its error.  The query platform (Go:
`runtime.GOARCH`/`runtime.GOOS`) is a parameter. -/
def FetchImageTo (w : World) (platform : Platform) : List Event × Except GoErr Unit :=
  match FetchRegistryToken w.tokenRes with
  | .error e => ([.fetchToken], .error e)
  | .ok _token =>
      match ListManifests w.manifestsRes with
      | .error e => ([.fetchToken, .listManifests], .error e)
      | .ok manifests =>
          match FindManifest manifests platform with
          | none => ([.fetchToken, .listManifests], .error .manifestNotFound)
          | some m =>
              match ListLayers (w.layersRes m.digest) with
              | .error e => ([.fetchToken, .listManifests, .listLayers m.digest], .error e)
              | .ok layers =>
                  let r := layerLoop w layers
                  (.fetchToken :: .listManifests :: .listLayers m.digest :: r.1, r.2)

/-- Outcome of `cmd.Run()` in `main` (main.go:50), as Go reports it:
`nil` when the child ran and exited 0; an `*exec.ExitError` whose
`ExitCode()` is `code` when the child started and terminated with the
non-zero status `code`; any other error (e.g. the child could not be
started) does not match `*exec.ExitError`. -/
inductive ChildResult where
  | success
  | exitStatus (code : Nat)
  | otherFailure (msg : String)
deriving DecidableEq, Repr

/-- The tail of `main` (main.go:50-57): a nil `Run` error falls through
to normal process exit 0; an `*exec.ExitError` exits with the child's
own exit code; any other `Run` error exits 1. -/
def mainRunExit : ChildResult → Nat
  | .success => 0
  | .exitStatus code => code
  | .otherFailure _ => 1

/-- Exit code of the whole program (main.go:18-58) as a function of the
stage outcomes: fewer than one positional argument, a failed temp-dir
creation, or a failed `FetchImageTo` each hit `log.Fatal`, which exits
with code 1; otherwise the child is run and `mainRunExit` applies. -/
def mainExitCode (nargs : Nat) (jail : Except String String)
    (fetch : Except GoErr Unit) (child : ChildResult) : Nat :=
  if nargs < 1 then 1
  else
    match jail with
    | .error _ => 1
    | .ok _ =>
        match fetch with
        | .error _ => 1
        | .ok _ => mainRunExit child

/-- `cmd.Path := flag.Arg(0)` (main.go:38): the executable is the first
positional argument. -/
def childPath (positional : List String) : String :=
  positional.headD ""

/-- The argv the child actually receives.  The source sets
`cmd.Args := flag.Args()[1:]` (main.go:39); Go's `exec.Cmd` uses
`Args` as the complete argv (including argv[0]) when it is non-empty,
and `[Path]` when it is empty. -/
def childArgv (positional : List String) : List String :=
  let args := positional.drop 1
  if args.isEmpty then [childPath positional] else args

/-- An external command invocation with its stdin contents. -/
structure TarInvocation where
  prog : String
  args : List String
  stdinData : ByteData
deriving DecidableEq, Repr

/-- The extraction step of the layer loop (main.go:88-89): the blob
bytes are piped, unexamined, into `tar -xzf - -C dir`.  No entry of the
archive is inspected by the program itself. -/
def extractInvocation (data : ByteData) (dir : String) : TarInvocation :=
  { prog := "tar", args := ["-xzf", "-", "-C", dir], stdinData := data }

/-- Modelled from the spec: the path-normalization judgment of the
path-safety requirement, which is absent from the source.  An archive
entry path resolves outside the destination directory if it is absolute
or if, reading its components left to right with `.` and empty
components dropped and `..` popping one component, it ever escapes above
the destination. -/
def pathComps : List Char → List Char → List String
  | [], acc => [String.mk acc.reverse]
  | c :: rest, acc =>
      if c = '/' then String.mk acc.reverse :: pathComps rest []
      else pathComps rest (c :: acc)

/-- Modelled from the spec: whether an archive entry path resolves
outside the destination directory — it is absolute, or its `..`
components climb above the destination. -/
def resolvesOutsideDest (p : String) : Bool :=
  match p.toList with
  | [] => false
  | c :: rest =>
      if c = '/' then true
      else
        let comps := (pathComps (c :: rest) []).filter (fun s => s != "" && s != ".")
        (comps.foldl
          (fun (st : Nat × Bool) s =>
            if s = ".." then
              (if st.1 = 0 then (0, true) else (st.1 - 1, st.2))
            else (st.1 + 1, st.2))
          ((0 : Nat), false)).2

/-- Sample platform `linux/amd64`, used as a concrete query. -/
def samplePlatA : Platform := { architecture := "amd64", os := "linux" }

/-- Sample platform `linux/arm64`. -/
def samplePlatB : Platform := { architecture := "arm64", os := "linux" }

/-- A concrete manifest for `samplePlatA`. -/
def sampleManifestA : Manifest :=
  { annotations := [], digest := "sha256:aaa", mediaType := "", platform := samplePlatA, size := 0 }

/-- A concrete manifest for `samplePlatB`, exactly the value decoded from
the manifest-list JSON in `missWorld` below. -/
def sampleManifestB : Manifest :=
  { annotations := [], digest := "sha256:bbb", mediaType := "", platform := samplePlatB, size := 0 }

/-- A concrete layer descriptor. -/
def sampleLayerA : Layer := { mediaType := "", size := 3, digest := "sha256:layer-a" }

/-- A second concrete layer descriptor, differing from `sampleLayerA`
only in its digest. -/
def sampleLayerB : Layer := { mediaType := "", size := 3, digest := "sha256:layer-b" }

/-- A concrete environment in which every blob fetch succeeds and the
external `tar` process always fails with `exit status 2`. -/
def tarFailWorld : World :=
  { tokenRes := .response 200 (.ok (.obj [("token", .str "tok")]))
    manifestsRes := .response 200 (.ok .null)
    layersRes := fun _ => .response 200 (.ok .null)
    blobRes := fun _ => .response 200 (.ok [7, 7])
    untarRes := fun _ => .error "exit status 2" }

/-- A concrete environment whose manifest list holds exactly one
manifest, for platform `linux/arm64` with digest `sha256:bbb`. -/
def missWorld : World :=
  { tokenRes := .response 200 (.ok (.obj [("token", .str "tok")]))
    manifestsRes := .response 200 (.ok (.obj
      [("manifests", .arr
        [.obj [("digest", .str "sha256:bbb"),
               ("platform", .obj [("architecture", .str "arm64"), ("os", .str "linux")])]])]))
    layersRes := fun _ => .response 200 (.ok .null)
    blobRes := fun _ => .response 200 (.ok [])
    untarRes := fun _ => .ok () }

theorem findManifest_eq_find (ms : List Manifest) (p : Platform) :
    FindManifest ms p = ms.find? (fun m => decide (m.platform = p)) := by
  induction ms with
  | nil => rfl
  | cons m rest ih =>
      by_cases h : m.platform = p
      · simp [FindManifest, List.find?, h]
      · simp [FindManifest, List.find?, h, ih]

theorem findManifest_of_filter_singleton (ms : List Manifest) (p : Platform) (m : Manifest)
    (h : ms.filter (fun m' => decide (m'.platform = p)) = [m]) :
    FindManifest ms p = some m := by
  induction ms with
  | nil => simp at h
  | cons m0 rest ih =>
      by_cases hp : m0.platform = p
      · rw [List.filter_cons_of_pos (by simpa using hp)] at h
        injection h with h1 h2
        subst h1
        simp [FindManifest, hp]
      · rw [List.filter_cons_of_neg (by simpa using hp)] at h
        simp [FindManifest, hp, ih h]

/-- C1: `FindManifest` scans the manifest list linearly and returns the
first manifest whose platform equals the query under value equality on
both fields; when exactly one manifest matches it returns that one, and
when no manifest matches it returns the not-found signal (`none`,
modelling `ok = false`). -/
theorem findManifest_first_match (ms : List Manifest) (p : Platform) :
    FindManifest ms p = ms.find? (fun m => decide (m.platform = p)) ∧
    (∀ m, ms.filter (fun m' => decide (m'.platform = p)) = [m] → FindManifest ms p = some m) ∧
    ((∀ m ∈ ms, m.platform ≠ p) → FindManifest ms p = none) := by
  refine ⟨findManifest_eq_find ms p, fun m h => findManifest_of_filter_singleton ms p m h, ?_⟩
  intro hnone
  rw [findManifest_eq_find]
  rw [List.find?_eq_none]
  intro m hm
  simpa using hnone m hm

theorem findManifest_first_match_witness :
    FindManifest [sampleManifestB, sampleManifestA] samplePlatA = some sampleManifestA ∧
    FindManifest [sampleManifestB] samplePlatA = none := by
  constructor
  · exact (findManifest_first_match [sampleManifestB, sampleManifestA] samplePlatA).2.1
      sampleManifestA (by decide)
  · exact (findManifest_first_match [sampleManifestB] samplePlatA).2.2 (by decide)

/-- C5: for `ListManifests`, `ListLayers` and `FetchLayer`, an HTTP
status other than 200 fails the call with an error carrying that
status, and (for the two JSON endpoints) an undecodable body fails the
call with a decode error; the `Except` result carries no descriptors or
bytes in either case. -/
theorem registry_errors (st : Nat) (jb : Except String Json) (bb : Except String ByteData)
    (msg : String) :
    (st ≠ 200 →
      ListManifests (.response st jb) = .error (.unexpectedStatus st) ∧
      ListLayers (.response st jb) = .error (.unexpectedStatus st) ∧
      FetchLayer (.response st bb) = .error (.unexpectedStatus st)) ∧
    ListManifests (.response 200 (.error msg)) = .error (.jsonDecode msg) ∧
    ListLayers (.response 200 (.error msg)) = .error (.jsonDecode msg) := by
  refine ⟨fun h => ?_, rfl, rfl⟩
  refine ⟨?_, ?_, ?_⟩ <;> simp [ListManifests, ListLayers, FetchLayer, h]

theorem registry_errors_witness :
    ListManifests (.response 404 (.ok Json.null)) = .error (.unexpectedStatus 404) ∧
    ListLayers (.response 404 (.ok Json.null)) = .error (.unexpectedStatus 404) ∧
    FetchLayer (.response 404 (.ok [])) = .error (.unexpectedStatus 404) ∧
    ListManifests (.response 200 (.error "invalid character")) =
      .error (.jsonDecode "invalid character") := by
  have h := registry_errors 404 (.ok Json.null) (.ok []) "invalid character"
  exact ⟨(h.1 (by decide)).1, (h.1 (by decide)).2.1, (h.1 (by decide)).2.2, h.2.1⟩

/-- C8: `FetchRegistryToken` fails on a transport failure and on an
undecodable body, but a body that decodes while lacking the `token`
field yields the empty token string with no error. -/
theorem fetchRegistryToken_error_modes (msg : String) (st : Nat) (fs : List (String × Json)) :
    FetchRegistryToken (.transportFailure msg) = .error (.transport msg) ∧
    FetchRegistryToken (.response st (.error msg)) = .error (.jsonDecode msg) ∧
    (jsonLookup fs "token" = none →
      FetchRegistryToken (.response st (.ok (.obj fs))) = .ok "") := by
  refine ⟨rfl, rfl, fun h => ?_⟩
  simp [FetchRegistryToken, decodeTokenBody, h]

theorem fetchRegistryToken_error_modes_witness :
    FetchRegistryToken (.response 200 (.ok (.obj [("expires_in", Json.num 300)]))) = .ok "" :=
  (fetchRegistryToken_error_modes "m" 200 [("expires_in", Json.num 300)]).2.2 rfl

/-- C9: `FetchRegistryToken` never inspects the HTTP status code: two
responses differing only in status produce identical results, and a
body that decodes to token `t` yields success `t` at every status. -/
theorem fetchRegistryToken_ignores_status (st st2 : Nat) (b : Except String Json)
    (j : Json) (t : String) :
    FetchRegistryToken (.response st b) = FetchRegistryToken (.response st2 b) ∧
    (decodeTokenBody j = .ok t → FetchRegistryToken (.response st (.ok j)) = .ok t) := by
  refine ⟨rfl, fun h => ?_⟩
  simp [FetchRegistryToken, h]

theorem fetchRegistryToken_ignores_status_witness :
    FetchRegistryToken (.response 401 (.ok (.obj [("token", Json.str "tok")]))) = .ok "tok" :=
  (fetchRegistryToken_ignores_status 401 200 (.ok .null) (.obj [("token", Json.str "tok")])
    "tok").2 rfl

/-- C10: a 200 response whose JSON body lacks the expected field makes
`ListManifests` (field `manifests`) and `ListLayers` (field `layers`)
return the empty list with no error, the same interface result as a
body holding an explicitly empty list. -/
theorem missing_field_decodes_empty (fs gs : List (String × Json)) :
    (jsonLookup fs "manifests" = none →
      ListManifests (.response 200 (.ok (.obj fs))) = .ok [] ∧
      ListManifests (.response 200 (.ok (.obj fs))) =
        ListManifests (.response 200 (.ok (.obj [("manifests", Json.arr [])])))) ∧
    (jsonLookup gs "layers" = none →
      ListLayers (.response 200 (.ok (.obj gs))) = .ok [] ∧
      ListLayers (.response 200 (.ok (.obj gs))) =
        ListLayers (.response 200 (.ok (.obj [("layers", Json.arr [])])))) := by
  constructor
  · intro h
    have h1 : ListManifests (.response 200 (.ok (.obj fs))) = .ok [] := by
      simp [ListManifests, decodeManifestListBody, h]
    exact ⟨h1, by rw [h1]; rfl⟩
  · intro h
    have h1 : ListLayers (.response 200 (.ok (.obj gs))) = .ok [] := by
      simp [ListLayers, decodeLayersBody, h]
    exact ⟨h1, by rw [h1]; rfl⟩

theorem missing_field_decodes_empty_witness :
    ListManifests (.response 200 (.ok (.obj [("schemaVersion", Json.num 2)]))) = .ok [] ∧
    ListLayers (.response 200 (.ok (.obj [("config", Json.null)]))) = .ok [] :=
  ⟨((missing_field_decodes_empty [("schemaVersion", Json.num 2)] [("config", Json.null)]).1
      rfl).1,
   ((missing_field_decodes_empty [("schemaVersion", Json.num 2)] [("config", Json.null)]).2
      rfl).1⟩

/-- C2 (amended): the layer loop processes layers strictly sequentially
in ascending list order — each layer's blob fetch is followed by its
extraction before the next layer's fetch — and the first layer whose
fetch or extraction fails aborts the loop with no event for any later
layer; a failed fetch returns that fetch's error unchanged and a failed
extraction returns the `untarFailed` wrapping of the tar error.  The
returned error does not carry the failing layer's identity. -/
theorem layerLoop_sequential_abort (w : World) (pre : List Layer) (l : Layer)
    (post : List Layer)
    (hpre : ∀ l' ∈ pre, ∃ d, FetchLayer (w.blobRes l'.digest) = .ok d ∧
      w.untarRes d = .ok ()) :
    (∀ e, FetchLayer (w.blobRes l.digest) = .error e →
      layerLoop w (pre ++ l :: post) =
        (layerEvents pre ++ [.fetchLayer l.digest], .error e)) ∧
    (∀ d msg, FetchLayer (w.blobRes l.digest) = .ok d → w.untarRes d = .error msg →
      layerLoop w (pre ++ l :: post) =
        (layerEvents pre ++ [.fetchLayer l.digest, .untar l.digest],
          .error (.untarFailed msg))) := by
  induction pre with
  | nil =>
      constructor
      · intro e he
        simp [layerLoop, layerEvents, he]
      · intro d msg hd hu
        simp [layerLoop, layerEvents, hd, hu]
  | cons p ps ih =>
      obtain ⟨d0, hd0, hu0⟩ := hpre p (by simp)
      have ih2 := ih (fun l' hl' => hpre l' (by simp [hl']))
      constructor
      · intro e he
        have hrec := ih2.1 e he
        simp [layerLoop, layerEvents, hd0, hu0, hrec]
      · intro d msg hd hu
        have hrec := ih2.2 d msg hd hu
        simp [layerLoop, layerEvents, hd0, hu0, hrec]

theorem layerLoop_sequential_abort_witness :
    layerLoop tarFailWorld [sampleLayerA, sampleLayerB] =
      ([.fetchLayer sampleLayerA.digest, .untar sampleLayerA.digest],
        .error (.untarFailed "exit status 2")) :=
  (layerLoop_sequential_abort tarFailWorld [] sampleLayerA [sampleLayerB]
      (by intro l' hl'; simp at hl')).2 [7, 7] "exit status 2" rfl rfl

/-- C2 counterexample: the error returned for a failing layer is the
same value for two layers that differ in their digest — the extraction
error is `failed to untar: <tar error>` with no layer identity in it —
so the returned error does not report which layer failed. -/
theorem layerLoop_error_omits_layer :
    (layerLoop tarFailWorld [sampleLayerA]).2 = .error (.untarFailed "exit status 2") ∧
    (layerLoop tarFailWorld [sampleLayerB]).2 = .error (.untarFailed "exit status 2") ∧
    sampleLayerA.digest ≠ sampleLayerB.digest :=
  ⟨rfl, rfl, by decide⟩

/-- C3: the whole program's exit code equals the child's own exit
status whenever the child starts and terminates with a non-zero status,
and equals 1 on any pipeline failure before the launch (no positional
argument, temp-dir creation failure, or a failed image fetch). -/
theorem mainExitCode_propagates_child_status (n : Nat) (hn : 1 ≤ n) (s jmsg : String)
    (code : Nat) (_hcode : code ≠ 0) (e : GoErr) (f : Except GoErr Unit) (c : ChildResult) :
    mainExitCode n (.ok s) (.ok ()) (.exitStatus code) = code ∧
    mainExitCode n (.ok s) (.error e) c = 1 ∧
    mainExitCode n (.error jmsg) f c = 1 ∧
    mainExitCode 0 (.ok s) f c = 1 := by
  have hlt : ¬ n < 1 := by omega
  refine ⟨?_, ?_, ?_, ?_⟩ <;> simp [mainExitCode, mainRunExit, hlt]

theorem mainExitCode_propagates_child_status_witness :
    mainExitCode 1 (.ok "/tmp/jail-2") (.ok ()) (.exitStatus 7) = 7 ∧
    mainExitCode 1 (.ok "/tmp/jail-2") (.error .manifestNotFound) .success = 1 :=
  have h := mainExitCode_propagates_child_status 1 (by decide) "/tmp/jail-2" "mkdir failed"
    7 (by decide) .manifestNotFound (.ok ()) .success
  ⟨h.1, h.2.1⟩

/-- C4: the extraction step performs no per-entry path check: for every
blob and destination it issues the same `tar -xzf - -C <dir>` command
with the blob bytes passed through unexamined, although (per the
spec-modelled judgment) a path such as `../../etc/evil` resolves
outside the destination and must be rejected. -/
theorem extract_no_path_check (data : ByteData) (dir : String) :
    resolvesOutsideDest "../../etc/evil" = true ∧
    extractInvocation data dir =
      { prog := "tar", args := ["-xzf", "-", "-C", dir], stdinData := data } :=
  ⟨by decide, rfl⟩

/-- C6: when the fetched manifest list holds no manifest for the query
platform, the pipeline stops with the manifest-not-found error, the
whole program exits with code 1, and the trace contains no blob
request. -/
theorem platform_miss_fetches_no_blob (w : World) (p : Platform) (tok : String)
    (ms : List Manifest)
    (htok : FetchRegistryToken w.tokenRes = .ok tok)
    (hms : ListManifests w.manifestsRes = .ok ms)
    (hfind : FindManifest ms p = none) (s : String) (c : ChildResult) :
    FetchImageTo w p = ([.fetchToken, .listManifests], .error .manifestNotFound) ∧
    (FetchImageTo w p).1.all (fun e => !e.isFetchLayer) = true ∧
    mainExitCode 1 (.ok s) (FetchImageTo w p).2 c = 1 := by
  have h1 : FetchImageTo w p = ([.fetchToken, .listManifests], .error .manifestNotFound) := by
    simp [FetchImageTo, htok, hms, hfind]
  refine ⟨h1, ?_, ?_⟩ <;> rw [h1] <;> rfl

theorem platform_miss_fetches_no_blob_witness :
    FetchImageTo missWorld samplePlatA =
      ([.fetchToken, .listManifests], .error .manifestNotFound) ∧
    mainExitCode 1 (.ok "/tmp/jail-1") (FetchImageTo missWorld samplePlatA).2 .success = 1 :=
  have h := platform_miss_fetches_no_blob missWorld samplePlatA "tok" [sampleManifestB]
    rfl rfl rfl "/tmp/jail-1" .success
  ⟨h.1, h.2.2⟩

/-- C7: the child's executable is the first positional argument, but
its argument vector is not the positional arguments as given: the
source sets `cmd.Args` to the positional arguments minus the first,
and Go's `exec.Cmd` treats `Args` as the full argv including argv[0],
so for positional arguments `/bin/echo hello` the child runs with argv
`[hello]` rather than `[/bin/echo, hello]` (the single-argument case
works only because an empty `Args` falls back to `[Path]`). -/
theorem child_argv_drops_first_positional :
    childPath ["/bin/echo", "hello"] = "/bin/echo" ∧
    childArgv ["/bin/echo", "hello"] = ["hello"] ∧
    childArgv ["/bin/echo", "hello"] ≠ ["/bin/echo", "hello"] ∧
    childArgv ["/bin/sh"] = ["/bin/sh"] :=
  ⟨rfl, rfl, by decide, rfl⟩
